import Mathlib

/-!
# Verification of the alert-subscriber layer

A shallow embedding of the `alert-subscriber` crate: a `tracing_subscriber`
layer that classifies events into alerts (`src/visitor.rs`), deduplicates
them through a TTL cache keyed by a SHA-256 digest (`src/lib.rs`,
`AlertLayer::on_event`), hands admitted alerts to a background worker over a
bounded channel, and delivers them through an `AlertHandler`
(`src/lib.rs::handle_alert_future`, `src/handler/seal.rs`).

Time (`std::time::Instant`) is modelled as `Nat`; durations as `Nat`.
The `BTreeMap<[u8; 32], Instant>` dedup cache is modelled extensionally as
a function from keys to optional expiry times.
-/

namespace AlertSubscriber

/-! ## Severity levels

`tracing::Level` orders levels by verbosity: `ERROR < WARN < INFO < DEBUG
< TRACE`.  A level is *less severe* exactly when it is *greater* in this
order.  `levelToNat` realises that order. -/

inductive Level where
  | error
  | warn
  | info
  | debug
  | trace
  deriving DecidableEq, Repr

/-- The `tracing` ordering of levels: `ERROR` is least, `TRACE` greatest. -/
def levelToNat : Level → Nat
  | .error => 0
  | .warn => 1
  | .info => 2
  | .debug => 3
  | .trace => 4

/-- `tracing::Level`'s `Display`: upper-case level names. -/
def levelStr : Level → String
  | .error => "ERROR"
  | .warn => "WARN"
  | .info => "INFO"
  | .debug => "DEBUG"
  | .trace => "TRACE"

/-! ## Field values and the visitor (`src/visitor.rs`)

`tracing` delivers an event's fields through a visitor with typed
callbacks.  The crate implements `record_bool`, `record_str` and
`record_debug`; a `debug` value reaches the visitor already rendered,
so the model carries its rendered string. -/

inductive FieldValue where
  | bool (b : Bool)
  | str (s : String)
  | debug (rendered : String)
  deriving DecidableEq, Repr

structure FieldEntry where
  name : String
  value : FieldValue
  deriving DecidableEq, Repr

/-- `AlertVisitor` (`src/visitor.rs:10-14`): severity, the typed `alert`
flag, and the string-coerced fields.  The `HashMap<&str, String>` is
modelled extensionally as `String → Option String`. -/
structure AlertVisitor where
  level : Level
  is_alert : Bool
  string_fields : String → Option String

/-- `AlertVisitor::new` (`src/visitor.rs:17-23`). -/
def AlertVisitor.new (level : Level) : AlertVisitor :=
  { level := level, is_alert := false, string_fields := fun _ => none }

/-- `AlertVisitor::insert` (`src/visitor.rs:26-28`): `HashMap::insert`,
last write for a key wins. -/
def AlertVisitor.insert (v : AlertVisitor) (key : String) (value : String) :
    AlertVisitor :=
  { v with string_fields := fun k => if k = key then some value else v.string_fields k }

/-- One step of `impl Visit for AlertVisitor` (`src/visitor.rs:65-81`):
`record_bool` sets the `is_alert` flag for a field named `alert` and inserts
`value.to_string()`; `record_str` and `record_debug` insert the rendered
text. -/
def recordField (v : AlertVisitor) (f : FieldEntry) : AlertVisitor :=
  match f.value with
  | .bool b =>
      let v' := if f.name = "alert" then { v with is_alert := b } else v
      v'.insert f.name (if b then "true" else "false")
  | .str s => v.insert f.name s
  | .debug r => v.insert f.name r

/-- `event.record(&mut visitor)` (`src/lib.rs:86`): visit every field of
the event in order. -/
def runVisitor (level : Level) (l : List FieldEntry) : AlertVisitor :=
  l.foldl recordField (AlertVisitor.new level)

/-- `AlertVisitor::is_alert` (`src/visitor.rs:31-33`):
`self.is_alert || self.string_fields.contains_key("alert")`. -/
def isAlertFn (v : AlertVisitor) : Bool :=
  v.is_alert || (v.string_fields "alert").isSome

/-- `AlertVisitor::message` (`src/visitor.rs:36-41`): the `message` field,
or the fallback text. -/
def message (v : AlertVisitor) : String :=
  (v.string_fields "message").getD "alert missing message"

/-- The raw deduplication key selected in `AlertVisitor::dedup_key`
(`src/visitor.rs:48-52`): the `dedup_key` field if present, otherwise the
message. -/
def rawDedupKey (v : AlertVisitor) : String :=
  (v.string_fields "dedup_key").getD (message v)

/-! ## SHA-256 (the `sha2` crate, used at `src/visitor.rs:54-56`)

A byte is a `Nat` below 256, a word a `Nat` below `2 ^ 32`; arithmetic is
explicit modulo 4294967296. -/

def add32 (a b : Nat) : Nat := (a + b) % 4294967296

def rotr (n x : Nat) : Nat :=
  ((x >>> n) ||| (x <<< (32 - n))) % 4294967296

def bigSigma0 (x : Nat) : Nat := (rotr 2 x) ^^^ (rotr 13 x) ^^^ (rotr 22 x)

def bigSigma1 (x : Nat) : Nat := (rotr 6 x) ^^^ (rotr 11 x) ^^^ (rotr 25 x)

def smallSigma0 (x : Nat) : Nat := (rotr 7 x) ^^^ (rotr 18 x) ^^^ (x >>> 3)

def smallSigma1 (x : Nat) : Nat := (rotr 17 x) ^^^ (rotr 19 x) ^^^ (x >>> 10)

def chFn (x y z : Nat) : Nat := (x &&& y) ^^^ ((x ^^^ 4294967295) &&& z)

def majFn (x y z : Nat) : Nat := (x &&& y) ^^^ (x &&& z) ^^^ (y &&& z)

/-- The first 64 primes, whose cube and square roots seed the SHA-256
constants (FIPS 180-4, sections 4.2.2 and 5.3.3). -/
def smallPrimes : List Nat :=
  [2, 3, 5, 7, 11, 13, 17, 19, 23, 29, 31, 37, 41, 43, 47, 53,
   59, 61, 67, 71, 73, 79, 83, 89, 97, 101, 103, 107, 109, 113, 127, 131,
   137, 139, 149, 151, 157, 163, 167, 173, 179, 181, 191, 193, 197, 199,
   211, 223, 227, 229, 233, 239, 241, 251, 257, 263, 269, 271, 277, 281,
   283, 293, 307, 311]

/-- Bisection step for the integer cube root: keeps `lo ^ 3 ≤ n < hi ^ 3`. -/
def cbrtGo (n : Nat) : Nat → Nat → Nat → Nat
  | 0, lo, _ => lo
  | fuel + 1, lo, hi =>
      let mid := (lo + hi) / 2
      if mid = lo then lo
      else if mid ^ 3 ≤ n then cbrtGo n fuel mid hi else cbrtGo n fuel lo mid

/-- Integer cube root: the largest `x` with `x ^ 3 ≤ n`, for `n < 2 ^ 105`
(the seeds below are `p * 2 ^ 96` with `p ≤ 311`). -/
def intCbrt (n : Nat) : Nat := cbrtGo n 64 0 (2 ^ 35)

/-- A SHA-256 round constant: the first 32 fractional bits of the cube
root of a prime. -/
def kConst (p : Nat) : Nat := intCbrt (p * 2 ^ 96) % 2 ^ 32

/-- Bisection step for the integer square root: keeps `lo ^ 2 ≤ n < hi ^ 2`. -/
def sqrtGo (n : Nat) : Nat → Nat → Nat → Nat
  | 0, lo, _ => lo
  | fuel + 1, lo, hi =>
      let mid := (lo + hi) / 2
      if mid = lo then lo
      else if mid ^ 2 ≤ n then sqrtGo n fuel mid hi else sqrtGo n fuel lo mid

/-- Integer square root: the largest `x` with `x ^ 2 ≤ n`, for `n < 2 ^ 70`. -/
def intSqrt (n : Nat) : Nat := sqrtGo n 64 0 (2 ^ 35)

/-- A SHA-256 initial hash word: the first 32 fractional bits of the
square root of a prime. -/
def hConst (p : Nat) : Nat := intSqrt (p * 2 ^ 64) % 2 ^ 32

/-- The 64 round constants `K` (`0x428a2f98`, `0x71374491`, ...). -/
def roundK : List Nat := smallPrimes.map kConst

/-- The initial hash state (`0x6a09e667`, `0xbb67ae85`, ...). -/
def initHash : List Nat := (smallPrimes.take 8).map hConst

/-- Extend a message schedule by one word. -/
def stepSchedule (ws : List Nat) : List Nat :=
  ws ++ [add32
    (add32 (smallSigma1 (ws.getD (ws.length - 2) 0)) (ws.getD (ws.length - 7) 0))
    (add32 (smallSigma0 (ws.getD (ws.length - 15) 0)) (ws.getD (ws.length - 16) 0))]

def fullSchedule (ws : List Nat) : List Nat := Nat.repeat stepSchedule 48 ws

structure Regs where
  a : Nat
  b : Nat
  c : Nat
  d : Nat
  e : Nat
  f : Nat
  g : Nat
  h : Nat

def roundFn (r : Regs) (kw : Nat × Nat) : Regs :=
  let t1 := add32 r.h (add32 (bigSigma1 r.e) (add32 (chFn r.e r.f r.g) (add32 kw.1 kw.2)))
  let t2 := add32 (bigSigma0 r.a) (majFn r.a r.b r.c)
  ⟨add32 t1 t2, r.a, r.b, r.c, add32 r.d t1, r.e, r.f, r.g⟩

def bytesToWords : List Nat → List Nat
  | b0 :: b1 :: b2 :: b3 :: rest =>
      (((b0 * 256 + b1) * 256 + b2) * 256 + b3) :: bytesToWords rest
  | _ => []

def compress (hs : List Nat) (block : List Nat) : List Nat :=
  let ws := fullSchedule (bytesToWords block)
  let r0 : Regs := ⟨hs.getD 0 0, hs.getD 1 0, hs.getD 2 0, hs.getD 3 0,
                    hs.getD 4 0, hs.getD 5 0, hs.getD 6 0, hs.getD 7 0⟩
  let r := (roundK.zip ws).foldl roundFn r0
  [add32 (hs.getD 0 0) r.a, add32 (hs.getD 1 0) r.b,
   add32 (hs.getD 2 0) r.c, add32 (hs.getD 3 0) r.d,
   add32 (hs.getD 4 0) r.e, add32 (hs.getD 5 0) r.f,
   add32 (hs.getD 6 0) r.g, add32 (hs.getD 7 0) r.h]

def beBytes : Nat → Nat → List Nat
  | 0, _ => []
  | k + 1, n => beBytes k (n / 256) ++ [n % 256]

def padMessage (msg : List Nat) : List Nat :=
  let len := msg.length
  let zeros := (64 - (len + 9) % 64) % 64
  msg ++ [0x80] ++ List.replicate zeros 0 ++ beBytes 8 (len * 8)

/-- Split into 64-byte blocks; fuel-based so the kernel can evaluate it. -/
def toBlocksFuel : Nat → List Nat → List (List Nat)
  | 0, _ => []
  | _, [] => []
  | fuel + 1, x :: xs => (x :: xs).take 64 :: toBlocksFuel fuel ((x :: xs).drop 64)

def toBlocks (l : List Nat) : List (List Nat) := toBlocksFuel l.length l

/-- SHA-256 of a byte sequence, as its 32-byte digest.  Checked against the
FIPS 180 test vectors for `""`, `"abc"` and the 56-byte vector below. -/
def sha256 (msg : List Nat) : List Nat :=
  ((toBlocks (padMessage msg)).foldl compress initHash).foldr
    (fun w acc => beBytes 4 w ++ acc) []

/-- UTF-8 encoding of one code point (Rust's `str::as_bytes` view). -/
def utf8EncodeChar (c : Nat) : List Nat :=
  if c < 0x80 then [c]
  else if c < 0x800 then
    [0xC0 ||| (c >>> 6), 0x80 ||| (c &&& 0x3F)]
  else if c < 0x10000 then
    [0xE0 ||| (c >>> 12), 0x80 ||| ((c >>> 6) &&& 0x3F), 0x80 ||| (c &&& 0x3F)]
  else
    [0xF0 ||| (c >>> 18), 0x80 ||| ((c >>> 12) &&& 0x3F),
     0x80 ||| ((c >>> 6) &&& 0x3F), 0x80 ||| (c &&& 0x3F)]

def strBytes (s : String) : List Nat :=
  (s.data.map (fun c => utf8EncodeChar c.toNat)).flatten

/-- `AlertVisitor::dedup_key` (`src/visitor.rs:47-57`): SHA-256 of the raw
key's bytes, a 32-byte digest (`[u8; 32]`). -/
def dedup_key (v : AlertVisitor) : List Nat :=
  sha256 (strBytes (rawDedupKey v))

/-! ## Dedup cache (`src/lib.rs`)

The `BTreeMap<[u8; 32], Instant>` is modelled extensionally: a `Cache`
maps a 32-byte key to the expiry instant of its live entry, if any.
`Instant` is a `Nat`. -/

abbrev Hash : Type := List Nat

abbrev Cache : Type := Hash → Option Nat

def emptyCache : Cache := fun _ => none

/-- `BTreeMap::insert` / `Entry::insert`: overwrite the entry for a key. -/
def cacheInsert (k : Hash) (exp : Nat) (c : Cache) : Cache :=
  fun k' => if k' = k then some exp else c k'

/-- `AlertLayer::purge_expired_entries` (`src/lib.rs:70-72`):
`cache.retain(|_, expiration| now < *expiration)` — keep exactly the
entries whose expiry is still in the future. -/
def purge_expired_entries (now : Nat) (c : Cache) : Cache :=
  fun k => match c k with
    | some exp => if now < exp then some exp else none
    | none => none

/-- The dedup admission step of `AlertLayer::on_event` (`src/lib.rs:91-106`):
vacant entry — insert `now + ttl`, admission; occupied and `now > expires_at` —
refresh to `now + ttl`, admission; otherwise suppress, cache untouched.
Returns (admitted?, updated cache). -/
def admission (k : Hash) (now ttl : Nat) (c : Cache) : Bool × Cache :=
  match c k with
  | none => (true, cacheInsert k (now + ttl) c)
  | some exp => if exp < now then (true, cacheInsert k (now + ttl) c) else (false, c)

/-- Run `admission` for one key over a sequence of occurrence times. -/
def admitSeq (k : Hash) (ttl : Nat) : List Nat → Cache → List Bool × Cache
  | [], c => ([], c)
  | t :: ts, c =>
      let step := admission k t ttl c
      let rest := admitSeq k ttl ts step.2
      (step.1 :: rest.1, rest.2)

/-- `Level::gt` as used in the early filter `level > &self.max_level`
(`src/lib.rs:81`): greater in the `tracing` order means more verbose,
i.e. less severe. -/
def levelGt (a b : Level) : Bool := levelToNat b < levelToNat a

/-- `AlertLayer::on_event` (`src/lib.rs:79-118`): filter by level, visit
the fields, and if the record is an alert run the dedup admission step.
Returns the updated cache and the visitor handed to the spawned send task
(`none` when filtered, not an alert, or suppressed). -/
def on_event (max_level : Level) (dedup_time : Nat) (level : Level)
    (fieldList : List FieldEntry) (now : Nat) (c : Cache) :
    Cache × Option AlertVisitor :=
  if levelGt level max_level then (c, none)
  else
    let visitor := runVisitor level fieldList
    if isAlertFn visitor then
      let step := admission (dedup_key visitor) now dedup_time c
      if step.1 then (step.2, some visitor) else (step.2, none)
    else (c, none)

/-! ## Hand-off queue and dispatcher worker (`src/lib.rs:108-145`) -/

/-- Outcome of the spawned send task at `src/lib.rs:108-116`.  The task
runs `tx.send(visitor).await` on the bounded `tokio::sync::mpsc` channel:
`send` resolves `Ok` once capacity is available — waiting inside the
spawned task when the queue is full — and returns `Err` (upon which the
task prints a diagnostic and drops the record) only when the channel is
closed, i.e. the receiver has been dropped. -/
inductive SendOutcome where
  | enqueued
  | droppedClosed
  deriving DecidableEq, Repr

/-- The enqueue path of `AlertLayer::on_event` (`src/lib.rs:108-116`),
as a function of whether the channel is closed and whether the queue is
full at enqueue time. -/
def enqueueSend (closed _full : Bool) : SendOutcome :=
  if closed then .droppedClosed else .enqueued

/-- What the worker loop passes to the handler for a received record
(`src/lib.rs:131-137`): `handler.handle_alert(visitor.level(),
visitor.message())` — the record's level and its raw message. -/
def workerInvocation (v : AlertVisitor) : Level × String :=
  (v.level, message v)

/-- The body `SealHandler::handle_alert` posts (`src/handler/seal.rs:80`):
`format!("{}: {}", level, msg)`. -/
def sealFormattedBody (lvl : Level) (msg : String) : String :=
  levelStr lvl ++ ": " ++ msg

/-- One wake-up of the worker loop in `handle_alert_future`
(`src/lib.rs:129-144`): either a record is received (with the handler call's
result as an oracle) or the purge interval ticks. -/
inductive WorkerEvent where
  | recv (v : AlertVisitor) (deliveryResult : Except String Unit)
  | tick (now : Nat)

/-- Effect of one worker wake-up on the dedup cache
(`src/lib.rs:129-144`): the receive arm only calls the handler and, on
error, prints a diagnostic (`src/lib.rs:135-137`) — it never touches the
cache; the tick arm purges expired entries (`src/lib.rs:139-142`). -/
def workerStep : WorkerEvent → Cache → Cache
  | .recv _ _, c => c
  | .tick now, c => purge_expired_entries now c

/-! ## Concrete records used in witnesses and counterexamples -/

/-- An `ERROR`-level event `alert = true, message = "disk full"`. -/
def diskFullRecord : AlertVisitor :=
  runVisitor .error [⟨"alert", .bool true⟩, ⟨"message", .debug "disk full"⟩]

/-- Same message, explicit `dedup_key = "k1"`. -/
def recKeyA : AlertVisitor :=
  runVisitor .error
    [⟨"alert", .bool true⟩, ⟨"message", .debug "boom"⟩, ⟨"dedup_key", .str "k1"⟩]

/-- Same message as `recKeyA`, explicit `dedup_key = "k2"`. -/
def recKeyB : AlertVisitor :=
  runVisitor .error
    [⟨"alert", .bool true⟩, ⟨"message", .debug "boom"⟩, ⟨"dedup_key", .str "k2"⟩]

/-- Message `"m1"`, explicit `dedup_key = "K"`. -/
def recMsgC : AlertVisitor :=
  runVisitor .error
    [⟨"alert", .bool true⟩, ⟨"message", .debug "m1"⟩, ⟨"dedup_key", .str "K"⟩]

/-- Message `"m2"`, same explicit `dedup_key = "K"` as `recMsgC`. -/
def recMsgD : AlertVisitor :=
  runVisitor .error
    [⟨"alert", .bool true⟩, ⟨"message", .debug "m2"⟩, ⟨"dedup_key", .str "K"⟩]

/-- The value stored for a field, as `record_bool` / `record_str` /
`record_debug` coerce it (`src/visitor.rs:65-81`). -/
def renderValue : FieldValue → String
  | .bool b => if b then "true" else "false"
  | .str s => s
  | .debug r => r

/-- The `is_alert` flag after visiting one field: only `record_bool` on a
field named `alert` writes it (`src/visitor.rs:66-69`). -/
def flagAfter (v : AlertVisitor) (f : FieldEntry) : Bool :=
  match f.value with
  | .bool b => if f.name = "alert" then b else v.is_alert
  | _ => v.is_alert

/-! ## Helper lemmas -/

set_option maxRecDepth 4000 in
/-- Sanity check of the SHA-256 embedding: the FIPS 180-4 `"abc"` test
vector. -/
theorem sha256_abc_vector :
    sha256 (strBytes "abc") =
      [0xba, 0x78, 0x16, 0xbf, 0x8f, 0x01, 0xcf, 0xea,
       0x41, 0x41, 0x40, 0xde, 0x5d, 0xae, 0x22, 0x23,
       0xb0, 0x03, 0x61, 0xa3, 0x96, 0x17, 0x7a, 0x9c,
       0xb4, 0x10, 0xff, 0x61, 0xf2, 0x00, 0x15, 0xad] := by
  decide

theorem cacheInsert_self (k : Hash) (e : Nat) (c : Cache) :
    cacheInsert k e c k = some e := by
  simp [cacheInsert]

theorem admit_vacant (k : Hash) (now ttl : Nat) (c : Cache) (h : c k = none) :
    admission k now ttl c = (true, cacheInsert k (now + ttl) c) := by
  simp [admission, h]

theorem admit_refresh (k : Hash) (now ttl exp : Nat) (c : Cache)
    (h : c k = some exp) (hlt : exp < now) :
    admission k now ttl c = (true, cacheInsert k (now + ttl) c) := by
  simp [admission, h, hlt]

theorem admit_suppress (k : Hash) (now ttl exp : Nat) (c : Cache)
    (h : c k = some exp) (hle : now ≤ exp) :
    admission k now ttl c = (false, c) := by
  simp [admission, h, Nat.not_lt.mpr hle]

theorem admitSeq_suppressed (k : Hash) (ttl exp : Nat) (ts : List Nat) (c : Cache)
    (h : c k = some exp) (hts : ∀ t ∈ ts, t ≤ exp) :
    admitSeq k ttl ts c = (ts.map (fun _ => false), c) := by
  induction ts with
  | nil => rfl
  | cons t ts ih =>
      have h1 : admission k t ttl c = (false, c) :=
        admit_suppress k t ttl exp c h (hts t (List.mem_cons_self t ts))
      simp [admitSeq, h1, ih (fun u hu => hts u (List.mem_cons_of_mem t hu))]

theorem recordField_eq (v : AlertVisitor) (f : FieldEntry) :
    recordField v f =
      ⟨v.level, flagAfter v f,
        fun k => if k = f.name then some (renderValue f.value) else v.string_fields k⟩ := by
  cases f with
  | mk fn fv =>
    cases fv with
    | bool b =>
        by_cases h : fn = "alert"
        · simp [recordField, AlertVisitor.insert, flagAfter, renderValue, h]
        · simp [recordField, AlertVisitor.insert, flagAfter, renderValue, h]
    | str s => rfl
    | debug r => rfl

theorem recordField_comm (v : AlertVisitor) (f g : FieldEntry)
    (h : f.name ≠ g.name) :
    recordField (recordField v f) g = recordField (recordField v g) f := by
  rw [recordField_eq, recordField_eq, recordField_eq, recordField_eq]
  have hflag :
      flagAfter ⟨v.level, flagAfter v f,
        fun k => if k = f.name then some (renderValue f.value) else v.string_fields k⟩ g
      = flagAfter ⟨v.level, flagAfter v g,
          fun k => if k = g.name then some (renderValue g.value) else v.string_fields k⟩ f := by
    cases hf : f.value <;> cases hg : g.value <;>
      simp_all [flagAfter] <;> by_cases h1 : f.name = "alert" <;>
        by_cases h2 : g.name = "alert" <;> simp_all
  refine congrArg₂ (fun a b => AlertVisitor.mk v.level a b) hflag ?_
  funext k
  by_cases h1 : k = f.name <;> by_cases h2 : k = g.name <;> simp_all

theorem foldl_recordField_perm {l₁ l₂ : List FieldEntry} (hp : l₁.Perm l₂) :
    (l₁.map FieldEntry.name).Nodup →
      ∀ v, l₁.foldl recordField v = l₂.foldl recordField v := by
  induction hp with
  | nil => intro _ v; rfl
  | cons x p ih =>
      intro hnd v
      simp only [List.foldl_cons]
      refine ih ?_ _
      simp only [List.map_cons, List.nodup_cons] at hnd
      exact hnd.2
  | swap x y l =>
      intro hnd v
      simp only [List.foldl_cons]
      rw [recordField_comm]
      simp only [List.map_cons, List.nodup_cons, List.mem_cons] at hnd
      intro hEq
      exact hnd.1 (Or.inl hEq)
  | trans p₁ p₂ ih₁ ih₂ =>
      intro hnd v
      refine (ih₁ hnd v).trans (ih₂ ?_ v)
      exact (p₁.map FieldEntry.name).nodup_iff.mp hnd

theorem isAlert_recordField (v : AlertVisitor) (f : FieldEntry) :
    isAlertFn (recordField v f) = (isAlertFn v || decide (f.name = "alert")) := by
  rw [recordField_eq]
  by_cases h : f.name = "alert"
  · cases hf : f.value <;> by_cases hb : v.is_alert <;>
      simp_all [isAlertFn, flagAfter]
  · have h2 : ¬("alert" = f.name) := fun hEq => h hEq.symm
    simp [isAlertFn, flagAfter, h, h2]
    cases hf : f.value <;> simp [h]

theorem isAlert_foldl (l : List FieldEntry) (v : AlertVisitor) :
    isAlertFn (l.foldl recordField v) =
      (isAlertFn v || l.any (fun f => decide (f.name = "alert"))) := by
  induction l generalizing v with
  | nil => simp
  | cons f fs ih =>
      simp [List.foldl_cons, ih, isAlert_recordField, Bool.or_assoc]

/-! ## Claims -/

/-- C1: the dedup admission step (`src/lib.rs:91-106`).  With no cache
entry for the hash, an entry expiring at `now + ttl` is inserted and the
occurrence is admitted; with an entry whose expiry lies strictly in the
past, the expiry is refreshed to `now + ttl` and the occurrence is
admitted; with an entry whose expiry is at or after `now`, the occurrence
is suppressed and the cache is left unchanged. -/
theorem admit_cases_spec (k : Hash) (now ttl : Nat) (c : Cache) :
    (c k = none → admission k now ttl c = (true, cacheInsert k (now + ttl) c)) ∧
    (∀ exp, c k = some exp → exp < now →
      admission k now ttl c = (true, cacheInsert k (now + ttl) c)) ∧
    (∀ exp, c k = some exp → now ≤ exp → admission k now ttl c = (false, c)) :=
  ⟨fun h => admit_vacant k now ttl c h,
   fun exp h hlt => admit_refresh k now ttl exp c h hlt,
   fun exp h hle => admit_suppress k now ttl exp c h hle⟩

/-- Witness for C1: all three branches exercised on the key `[0]` with
`ttl = 10`. -/
theorem admit_cases_spec_witness :
    admission [0] 5 10 emptyCache = (true, cacheInsert [0] 15 emptyCache) ∧
    admission [0] 20 10 (cacheInsert [0] 15 emptyCache) =
      (true, cacheInsert [0] 30 (cacheInsert [0] 15 emptyCache)) ∧
    admission [0] 12 10 (cacheInsert [0] 15 emptyCache) =
      (false, cacheInsert [0] 15 emptyCache) :=
  ⟨(admit_cases_spec [0] 5 10 emptyCache).1 rfl,
   (admit_cases_spec [0] 20 10 (cacheInsert [0] 15 emptyCache)).2.1 15
     (by simp [cacheInsert]) (by decide),
   (admit_cases_spec [0] 12 10 (cacheInsert [0] 15 emptyCache)).2.2 15
     (by simp [cacheInsert]) (by decide)⟩

/-- C2: when every later occurrence of one identity falls inside the TTL
window opened by the first (`t ≤ t0 + ttl`, the suppression condition of
`src/lib.rs:100-104`), exactly the first occurrence is admitted and all
later ones are suppressed; the final cache entry expires at `t0 + ttl`,
and any occurrence strictly after that expiry is admitted again. -/
theorem dedup_window_spec (k : Hash) (ttl t0 : Nat) (ts : List Nat) (c0 : Cache)
    (h0 : c0 k = none) (hts : ∀ t ∈ ts, t ≤ t0 + ttl) :
    (admitSeq k ttl (t0 :: ts) c0).1 = true :: ts.map (fun _ => false) ∧
    (admitSeq k ttl (t0 :: ts) c0).2 k = some (t0 + ttl) ∧
    (∀ tNext, t0 + ttl < tNext →
      (admission k tNext ttl ((admitSeq k ttl (t0 :: ts) c0).2)).1 = true) := by
  have hfirst := admit_vacant k t0 ttl c0 h0
  have hmem := cacheInsert_self k (t0 + ttl) c0
  have hrest := admitSeq_suppressed k ttl (t0 + ttl) ts
    (cacheInsert k (t0 + ttl) c0) hmem hts
  refine ⟨?_, ?_, ?_⟩
  · simp [admitSeq, hfirst, hrest]
  · simp [admitSeq, hfirst, hrest, hmem]
  · intro tNext hNext
    have hcache : (admitSeq k ttl (t0 :: ts) c0).2 k = some (t0 + ttl) := by
      simp [admitSeq, hfirst, hrest, hmem]
    simp [admission, hcache, hNext]

/-- Witness for C2: occurrences at times `0, 3, 10` with `ttl = 10` —
only the first admitted — and a next occurrence at `11` admitted again. -/
theorem dedup_window_spec_witness :
    (emptyCache [1] = none ∧ ∀ t ∈ [3, 10], t ≤ 0 + 10) ∧
    (admitSeq [1] 10 [0, 3, 10] emptyCache).1 = [true, false, false] ∧
    (admission [1] 11 10 ((admitSeq [1] 10 [0, 3, 10] emptyCache).2)).1 = true := by
  have h := dedup_window_spec [1] 10 0 [3, 10] emptyCache rfl (by decide)
  exact ⟨⟨rfl, by decide⟩, h.1, h.2.2 11 (by decide)⟩

/-- C3 counterexample: at `src/lib.rs:108-116` the admitted record is sent
with `tx.send(visitor).await` inside a spawned task; on a full (but open)
queue tokio's bounded `send` waits for capacity, so the record is
enqueued, not dropped — the claim's queue-full drop does not happen. -/
theorem enqueue_full_cex :
    enqueueSend false true = SendOutcome.enqueued ∧
    enqueueSend false true ≠ SendOutcome.droppedClosed := by
  exact ⟨rfl, by decide⟩

/-- C3 amended: the spawned send task drops the record (with a diagnostic,
`src/lib.rs:113`) exactly when the channel is closed; queue fullness never
causes a drop — the send waits inside the spawned task and the record is
enqueued once capacity frees up.  The emitting context itself never waits,
since the send runs in a spawned task. -/
theorem enqueue_drop_iff_closed (closed full : Bool) :
    enqueueSend closed full = SendOutcome.droppedClosed ↔ closed = true := by
  cases closed <;> simp [enqueueSend]

/-- C4 counterexample: the worker loop (`src/lib.rs:131-137`) invokes the
handler with the record's *raw* message — for the ERROR `"disk full"`
record the second argument is `"disk full"`, not `"ERROR: disk full"`
(the crate's own test at `src/lib.rs:182-185` asserts the handler receives
the raw message). -/
theorem worker_invocation_cex :
    workerInvocation diskFullRecord = (Level.error, "disk full") ∧
    (workerInvocation diskFullRecord).2 ≠ "ERROR: disk full" := by
  exact ⟨rfl, by decide⟩

/-- C4 amended: the worker invokes the handler with the record's level and
raw message; the Seal delivery implementation then formats
`"{level}: {message}"` itself (`src/handler/seal.rs:80`) and posts it, so
the ERROR-level `"disk full"` record yields the request body
`"ERROR: disk full"`. -/
theorem worker_invocation_spec :
    (∀ v, workerInvocation v = (v.level, message v)) ∧
    workerInvocation diskFullRecord = (Level.error, "disk full") ∧
    sealFormattedBody (workerInvocation diskFullRecord).1
      (workerInvocation diskFullRecord).2 = "ERROR: disk full" := by
  exact ⟨fun _ => rfl, rfl, rfl⟩

/-- C8: `purge_expired_entries` (`src/lib.rs:70-72`) keeps exactly the
entries whose expiry is still strictly in the future: an entry `(k, e)`
survives the purge at `now` iff it was present before and `now < e`; in
particular every removed entry had `e ≤ now` and every surviving entry is
unchanged. -/
theorem purge_spec (now : Nat) (c : Cache) (k : Hash) (e : Nat) :
    purge_expired_entries now c k = some e ↔ (c k = some e ∧ now < e) := by
  unfold purge_expired_entries
  cases h : c k with
  | none => simp
  | some exp =>
      by_cases hlt : now < exp
      · simp only [hlt, if_pos]
        constructor
        · intro hEq
          exact ⟨hEq, by cases hEq; exact hlt⟩
        · intro hAnd
          exact hAnd.1
      · simp only [hlt, if_neg, not_false_iff]
        constructor
        · intro hEq; cases hEq
        · intro hAnd
          cases hAnd.1
          exact absurd hAnd.2 hlt

/-- C9: the early severity filter (`src/lib.rs:79-83`): when the event's
level is less severe (greater in the `tracing` order) than the configured
maximum, `on_event` returns with the cache untouched and nothing handed to
the send task, whatever the fields are. -/
theorem level_filter_spec (max_level : Level) (dedup_time : Nat)
    (level : Level) (fieldList : List FieldEntry) (now : Nat) (c : Cache)
    (h : levelGt level max_level = true) :
    on_event max_level dedup_time level fieldList now c = (c, none) := by
  simp [on_event, h]

/-- Witness for C9: an `INFO` event carrying `alert = true` against a
`WARN` maximum is ignored entirely. -/
theorem level_filter_spec_witness :
    levelGt Level.info Level.warn = true ∧
    on_event Level.warn 10 Level.info [⟨"alert", FieldValue.bool true⟩] 0
      emptyCache = (emptyCache, none) :=
  ⟨by decide,
   level_filter_spec Level.warn 10 Level.info [⟨"alert", FieldValue.bool true⟩]
     0 emptyCache (by decide)⟩

/-- C5 counterexample: with a repeated field name the last write wins
(`HashMap::insert`, `src/visitor.rs:26-28`; `record_bool`,
`src/visitor.rs:66-72`), so permuting `alert = true, alert = false`
changes the resulting record: the `is_alert` flag ends up `false` in one
order and `true` in the other. -/
theorem classify_perm_cex :
    ([⟨"alert", FieldValue.bool true⟩, ⟨"alert", FieldValue.bool false⟩] :
        List FieldEntry).Perm
      [⟨"alert", FieldValue.bool false⟩, ⟨"alert", FieldValue.bool true⟩] ∧
    runVisitor Level.error
        [⟨"alert", FieldValue.bool true⟩, ⟨"alert", FieldValue.bool false⟩] ≠
      runVisitor Level.error
        [⟨"alert", FieldValue.bool false⟩, ⟨"alert", FieldValue.bool true⟩] := by
  constructor
  · exact List.Perm.swap _ _ _
  · intro hEq
    have hFlag := congrArg AlertVisitor.is_alert hEq
    have hL : (runVisitor Level.error
        [⟨"alert", FieldValue.bool true⟩, ⟨"alert", FieldValue.bool false⟩]).is_alert
        = false := rfl
    have hR : (runVisitor Level.error
        [⟨"alert", FieldValue.bool false⟩, ⟨"alert", FieldValue.bool true⟩]).is_alert
        = true := rfl
    rw [hL, hR] at hFlag
    exact Bool.false_ne_true hFlag

/-- C5 amended: field extraction is order-independent for events whose
field names are pairwise distinct: permuting such a field list yields the
same record — the same `is_alert` flag, field mapping, message and dedup
identity.  (With a repeated name the last write wins, so order matters
only then.) -/
theorem classify_perm_nodup (level : Level) (l₁ l₂ : List FieldEntry)
    (hp : l₁.Perm l₂) (hnd : (l₁.map FieldEntry.name).Nodup) :
    runVisitor level l₁ = runVisitor level l₂ ∧
    isAlertFn (runVisitor level l₁) = isAlertFn (runVisitor level l₂) ∧
    message (runVisitor level l₁) = message (runVisitor level l₂) ∧
    dedup_key (runVisitor level l₁) = dedup_key (runVisitor level l₂) := by
  have h : runVisitor level l₁ = runVisitor level l₂ :=
    foldl_recordField_perm hp hnd (AlertVisitor.new level)
  exact ⟨h, congrArg isAlertFn h, congrArg message h, congrArg dedup_key h⟩

/-- Witness for C5 (amended): swapping `alert = true` and
`message = "m"` — distinct names — leaves the record unchanged. -/
theorem classify_perm_nodup_witness :
    ([⟨"alert", FieldValue.bool true⟩, ⟨"message", FieldValue.str "m"⟩] :
        List FieldEntry).Perm
      [⟨"message", FieldValue.str "m"⟩, ⟨"alert", FieldValue.bool true⟩] ∧
    (([⟨"alert", FieldValue.bool true⟩, ⟨"message", FieldValue.str "m"⟩] :
        List FieldEntry).map FieldEntry.name).Nodup ∧
    runVisitor Level.error
        [⟨"alert", FieldValue.bool true⟩, ⟨"message", FieldValue.str "m"⟩] =
      runVisitor Level.error
        [⟨"message", FieldValue.str "m"⟩, ⟨"alert", FieldValue.bool true⟩] :=
  ⟨List.Perm.swap _ _ _, by decide,
   (classify_perm_nodup Level.error
      [⟨"alert", FieldValue.bool true⟩, ⟨"message", FieldValue.str "m"⟩]
      [⟨"message", FieldValue.str "m"⟩, ⟨"alert", FieldValue.bool true⟩]
      (List.Perm.swap _ _ _) (by decide)).1⟩

/-- C6: `is_alert()` (`src/visitor.rs:31-33`) is the typed `is_alert` flag
OR-ed with mere presence of an `alert` key; and over any visited event, the
record classifies as an alert exactly when the event carried a field named
`alert` in any form (`record_bool` / `record_str` / `record_debug` all
insert the field, `src/visitor.rs:65-81`). -/
theorem is_alert_spec (level : Level) (l : List FieldEntry) :
    (∀ v, isAlertFn v = (v.is_alert || (v.string_fields "alert").isSome)) ∧
    isAlertFn (runVisitor level l) =
      l.any (fun f => decide (f.name = "alert")) := by
  refine ⟨fun _ => rfl, ?_⟩
  have h := isAlert_foldl l (AlertVisitor.new level)
  simpa [runVisitor, isAlertFn, AlertVisitor.new] using h

set_option maxRecDepth 4000 in
/-- C7: the dedup identity (`src/visitor.rs:47-57`) is the `dedup_key`
field if present, otherwise the message, and the 32-byte identity hash is
SHA-256 of that string: records with equal raw identities hash alike —
in particular `recMsgC`/`recMsgD` with different messages but the same
explicit `dedup_key` collide (duplicates) — while `recKeyA`/`recKeyB`
with the same message but different explicit `dedup_key`s produce distinct
digests (distinct). -/
theorem dedup_identity_spec :
    (∀ v, rawDedupKey v = (v.string_fields "dedup_key").getD (message v)) ∧
    (∀ v, dedup_key v = sha256 (strBytes (rawDedupKey v))) ∧
    (∀ v₁ v₂, rawDedupKey v₁ = rawDedupKey v₂ → dedup_key v₁ = dedup_key v₂) ∧
    (message recMsgC ≠ message recMsgD ∧
      rawDedupKey recMsgC = rawDedupKey recMsgD ∧
      dedup_key recMsgC = dedup_key recMsgD) ∧
    (message recKeyA = message recKeyB ∧
      rawDedupKey recKeyA ≠ rawDedupKey recKeyB ∧
      dedup_key recKeyA ≠ dedup_key recKeyB) := by
  refine ⟨fun _ => rfl, fun _ => rfl,
    fun v₁ v₂ h => by simp only [dedup_key, h], ?_, ?_⟩
  · exact ⟨by decide, by decide, by decide⟩
  · exact ⟨by decide, by decide, by decide⟩

set_option maxRecDepth 4000 in
/-- Witness for C7: the equal-raw-key congruence applied to the two
records sharing `dedup_key = "K"`. -/
theorem dedup_identity_spec_witness :
    rawDedupKey recMsgC = rawDedupKey recMsgD ∧
    dedup_key recMsgC = dedup_key recMsgD :=
  ⟨by decide, dedup_identity_spec.2.2.1 recMsgC recMsgD (by decide)⟩

/-- C10: a delivery failure leaves the dedup cache untouched: the worker's
receive arm (`src/lib.rs:131-137`) only logs the handler's error, so the
entry inserted at admission keeps its expiry `t0 + ttl`, and a repeat of
the same identity at any `t ≤ t0 + ttl` is still suppressed even though no
delivery succeeded. -/
theorem delivery_failure_frame (k : Hash) (ttl t0 t : Nat) (c0 : Cache)
    (v : AlertVisitor) (err : String)
    (h0 : c0 k = none) (ht : t ≤ t0 + ttl) :
    workerStep (.recv v (.error err)) ((admission k t0 ttl c0).2) =
      (admission k t0 ttl c0).2 ∧
    admission k t ttl
        (workerStep (.recv v (.error err)) ((admission k t0 ttl c0).2)) =
      (false, (admission k t0 ttl c0).2) := by
  have h1 := admit_vacant k t0 ttl c0 h0
  have h2 : (admission k t0 ttl c0).2 = cacheInsert k (t0 + ttl) c0 := by rw [h1]
  refine ⟨rfl, ?_⟩
  show admission k t ttl ((admission k t0 ttl c0).2) = (false, (admission k t0 ttl c0).2)
  rw [h2]
  exact admit_suppress k t ttl (t0 + ttl) (cacheInsert k (t0 + ttl) c0)
    (cacheInsert_self k (t0 + ttl) c0) ht

/-- Witness for C10: admission at time 0 with `ttl = 10`, a failed
delivery, then a repeat at time 5 — still suppressed. -/
theorem delivery_failure_frame_witness :
    emptyCache [2] = none ∧
    admission [2] 5 10
        (workerStep (.recv diskFullRecord (.error "http 500"))
          ((admission [2] 0 10 emptyCache).2)) =
      (false, (admission [2] 0 10 emptyCache).2) :=
  ⟨rfl,
   (delivery_failure_frame [2] 10 0 5 emptyCache diskFullRecord "http 500"
      rfl (by decide)).2⟩

end AlertSubscriber
